import Mathlib

/-!
# Verification of the CRT-Smart-Display live-position rendering pipeline

A shallow embedding, over exact rationals, of the data model and operations of
the ADS-B tracker pipeline: the coordinate mapper (`src/apps/adsb/config.ts`),
the trail store and location fetch of the SDK (`lib/adsbSdk.ts`), and the
motion interpolator of `src/apps/adsb/AdsbApp.tsx`.

Conventions of the embedding:
* JavaScript numbers are embedded as `ℚ` (exact arithmetic; the claims are
  about the algorithms, not floating-point rounding).
* Optional fields (`lat?: number`) are `Option ℚ`; JavaScript truthiness of a
  number (`if (ac.lat)`) is `truthyQ`: `undefined` and `0` are falsy.
* JavaScript `Map` objects (insertion-ordered, unique keys) are association
  lists `List (κ × β)`; `Map.get` is `mapGet?` (first match) and `Map.set` is
  `mapSet` (replace in place if the key exists, else append), which matches
  the JS semantics on maps whose keys are unique.
-/

/-- `Map.get(k)` on an association list: the value of the first entry whose
key is `k`. -/
def mapGet? {κ β : Type} [DecidableEq κ] : List (κ × β) → κ → Option β
  | [], _ => none
  | (k', v) :: rest, k => if k' = k then some v else mapGet? rest k

/-- `Map.set(k, v)` on an association list: replace the first entry with key
`k` in place, or append `(k, v)` if no entry has key `k`. -/
def mapSet {κ β : Type} [DecidableEq κ] : List (κ × β) → κ → β → List (κ × β)
  | [], k, v => [(k, v)]
  | (k', v') :: rest, k, v =>
    if k' = k then (k, v) :: rest else (k', v') :: mapSet rest k v

/-! ## Coordinate Mapper (`src/apps/adsb/config.ts`) -/

/-- One hand-surveyed calibration record of the reference-point table. -/
structure RefPoint where
  name : String
  lat : ℚ
  lon : ℚ
  x : ℚ
  y : ℚ
deriving DecidableEq

/-- `ADSB_PHILADELPHIA_REFERENCE_POINTS` of `config.ts` (decimal literals as
exact rationals). -/
def ADSB_PHILADELPHIA_REFERENCE_POINTS : List RefPoint :=
  [⟨"city_hall", 39952351414037274/1000000000000000, -751636342534157/10000000000000,
    557, 441⟩,
   ⟨"west_lehigh_ave", 3999822295610221/100000000000000, -7518745246451326/100000000000000,
    400, 49⟩,
   ⟨"wiggins_marina", 399421035968403/10000000000000, -7513209582939922/100000000000000,
    76353/100, 52756/100⟩,
   ⟨"camden_petty_island_guard_house", 3996757021845487/100000000000000, -7508649891063769/100000000000000,
    106253/100, 30956/100⟩]

/-- The squared degree-space distance from a query point to a reference point.
`config.ts` computes `distance = Math.sqrt(latDiff² + lonDiff²)`; the embedding
keeps the square, which is exact over `ℚ`. -/
def dist2 (lat lon : ℚ) (p : RefPoint) : ℚ :=
  (lat - p.lat) * (lat - p.lat) + (lon - p.lon) * (lon - p.lon)

/-- The square of the near-zero epsilon `0.0001` of `latLonToPixel`: the
source's `distance < 0.0001` is exactly `dist2 < EPS2` (both sides of the
comparison are nonnegative, so squaring is faithful). -/
def EPS2 : ℚ := 1/100000000

/-- The in-order scan of the reference points performed by the loop of
`latLonToPixel`: the first point whose distance to the query is below the
epsilon, if any (the source returns its pixels immediately, discarding the
accumulated weights). -/
def findClose (lat lon : ℚ) : List RefPoint → Option RefPoint
  | [] => none
  | p :: ps => if dist2 lat lon p < EPS2 then some p else findClose lat lon ps

/-- `totalWeight` accumulated by `latLonToPixel`: `Σ 1/distanceᵢ²`
(the source computes `weight = 1 / (distance * distance)` with
`distance = sqrt(dist2)`, so `weight = 1 / dist2` exactly). -/
def totalWeight (lat lon : ℚ) : ℚ :=
  (ADSB_PHILADELPHIA_REFERENCE_POINTS.map (fun p => 1 / dist2 lat lon p)).sum

/-- `weightedX` accumulated by `latLonToPixel`: `Σ pixelXᵢ · (1/distanceᵢ²)`. -/
def weightedX (lat lon : ℚ) : ℚ :=
  (ADSB_PHILADELPHIA_REFERENCE_POINTS.map (fun p => p.x * (1 / dist2 lat lon p))).sum

/-- `weightedY` accumulated by `latLonToPixel`: `Σ pixelYᵢ · (1/distanceᵢ²)`. -/
def weightedY (lat lon : ℚ) : ℚ :=
  (ADSB_PHILADELPHIA_REFERENCE_POINTS.map (fun p => p.y * (1 / dist2 lat lon p))).sum

/-- `Math.min(...list)` over a nonempty list (the empty case is unreachable in
the source: the reference-point table is a nonempty constant). -/
def qListMin : List ℚ → ℚ
  | [] => 0
  | x :: xs => xs.foldl min x

/-- `Math.max(...list)` over a nonempty list. -/
def qListMax : List ℚ → ℚ
  | [] => 0
  | x :: xs => xs.foldl max x

/-- `minLat` of the reference-point table computed by `latLonToPixel`. -/
def refMinLat : ℚ := qListMin (ADSB_PHILADELPHIA_REFERENCE_POINTS.map RefPoint.lat)

/-- `maxLat` of the reference-point table. -/
def refMaxLat : ℚ := qListMax (ADSB_PHILADELPHIA_REFERENCE_POINTS.map RefPoint.lat)

/-- `minLon` of the reference-point table. -/
def refMinLon : ℚ := qListMin (ADSB_PHILADELPHIA_REFERENCE_POINTS.map RefPoint.lon)

/-- `maxLon` of the reference-point table. -/
def refMaxLon : ℚ := qListMax (ADSB_PHILADELPHIA_REFERENCE_POINTS.map RefPoint.lon)

/-- `minX` of the reference-point table (used by the fallback branch). -/
def refMinX : ℚ := qListMin (ADSB_PHILADELPHIA_REFERENCE_POINTS.map RefPoint.x)

/-- `maxX` of the reference-point table. -/
def refMaxX : ℚ := qListMax (ADSB_PHILADELPHIA_REFERENCE_POINTS.map RefPoint.x)

/-- `minY` of the reference-point table. -/
def refMinY : ℚ := qListMin (ADSB_PHILADELPHIA_REFERENCE_POINTS.map RefPoint.y)

/-- `maxY` of the reference-point table. -/
def refMaxY : ℚ := qListMax (ADSB_PHILADELPHIA_REFERENCE_POINTS.map RefPoint.y)

/-- `latLonToPixel` of `config.ts`. The source interleaves the exact-match
short-circuit with the weight accumulation in a single loop; since a
short-circuit discards the accumulated weights, this is equivalent to first
scanning for the earliest close point (`findClose`) and, when none exists,
using the fully accumulated weights. -/
def latLonToPixel (lat lon : ℚ) : ℚ × ℚ :=
  match findClose lat lon ADSB_PHILADELPHIA_REFERENCE_POINTS with
  | some p => (p.x, p.y)
  | none =>
    if totalWeight lat lon = 0 ∨ lat < refMinLat ∨ lat > refMaxLat ∨
        lon < refMinLon ∨ lon > refMaxLon then
      let latNorm := (lat - refMinLat) / (refMaxLat - refMinLat)
      let lonNorm := (lon - refMinLon) / (refMaxLon - refMinLon)
      (refMinX + lonNorm * (refMaxX - refMinX),
       refMinY + (1 - latNorm) * (refMaxY - refMinY))
    else
      (weightedX lat lon / totalWeight lat lon,
       weightedY lat lon / totalWeight lat lon)

/-! ## Data model (`types/adsb.ts`) -/

/-- The `alt_baro` field: a number or the literal string `'ground'`. -/
inductive AltBaro where
  | num (v : ℚ)
  | ground
deriving DecidableEq

/-- The fields of an `Aircraft` record (`types/adsb.ts`) read by the embedded
pipeline; every other field of the interface is ignored by the functions under
verification. Optional fields are `Option`. -/
structure Aircraft where
  hex : String := ""
  flight : Option String := none
  alt_baro : Option AltBaro := none
  track : Option ℚ := none
  true_heading : Option ℚ := none
  emergency : Option String := none
  category : Option String := none
  lat : Option ℚ := none
  lon : Option ℚ := none
deriving DecidableEq

/-- JavaScript truthiness of an optional number: `undefined` and `0` are
falsy. -/
def truthyQ : Option ℚ → Bool
  | none => false
  | some v => v != 0

/-- `a || b` on optional numbers (`ac.true_heading || ac.track`). -/
def jsOrQ (a b : Option ℚ) : Option ℚ :=
  if truthyQ a then a else b

/-- `typeof ac.alt_baro === 'number' ? ac.alt_baro : undefined`. -/
def altNum : Option AltBaro → Option ℚ
  | some (.num v) => some v
  | _ => none

/-- One recorded trail position (`AircraftPosition` of `types/adsb.ts`). -/
structure AircraftPosition where
  lat : ℚ
  lon : ℚ
  timestamp : ℚ
  altitude : Option ℚ := none
  heading : Option ℚ := none
deriving DecidableEq

/-- A per-aircraft trail (`AircraftTrail` of `types/adsb.ts`). -/
structure AircraftTrail where
  hex : String
  positions : List AircraftPosition
  maxLength : ℕ
deriving DecidableEq

/-- `ADSB_MAP_CONFIG.TRAIL_LENGTH` of `config.ts`. -/
def TRAIL_LENGTH : ℕ := 50

/-- `MILITARY_HEX_PREFIXES` of `config.ts`. -/
def MILITARY_HEX_PREFIXES : List String := ["AE", "ADF", "43C", "3C6"]

/-! ## Trail Store (`lib/adsbSdk.ts`) -/

/-- The module-level `aircraftTrails` map of the SDK. -/
abbrev TrailStore := List (String × AircraftTrail)

/-- `positions.slice(-n)` in JavaScript: the last `n` elements when `n ≥ 1`
(and the whole list when `n = 0`, since `slice(-0)` is `slice(0)`). -/
def jsSliceLast {α : Type} (l : List α) (n : ℕ) : List α :=
  if n = 0 then l else l.drop (l.length - n)

/-- The append-then-truncate step of `updateAircraftTrails` on an existing
trail: push the position, then keep only the last `maxLength` positions if
the length now exceeds `maxLength`. -/
def recordPosition (t : AircraftTrail) (p : AircraftPosition) : AircraftTrail :=
  let positions := t.positions ++ [p]
  if positions.length > t.maxLength then
    { t with positions := jsSliceLast positions t.maxLength }
  else
    { t with positions := positions }

/-- The `AircraftPosition` built by `updateAircraftTrails` for one polled
aircraft at time `now`. -/
def positionOf (ac : Aircraft) (now : ℚ) : AircraftPosition :=
  ⟨ac.lat.getD 0, ac.lon.getD 0, now, altNum ac.alt_baro, jsOrQ ac.true_heading ac.track⟩

/-- The body of the recording loop of `updateAircraftTrails` for one polled
aircraft: when its position is truthy, create its trail (capacity
`TRAIL_LENGTH`) if absent, else append to it; otherwise leave the store
unchanged. -/
def recordStep (now : ℚ) (s : TrailStore) (ac : Aircraft) : TrailStore :=
  if truthyQ ac.lat && truthyQ ac.lon then
    match mapGet? s ac.hex with
    | none => mapSet s ac.hex ⟨ac.hex, [positionOf ac now], TRAIL_LENGTH⟩
    | some trail => mapSet s ac.hex (recordPosition trail (positionOf ac now))
  else s

/-- The recording phase of `updateAircraftTrails` (lines 224–250 of the SDK). -/
def recordAll (aircraft : List Aircraft) (st : TrailStore) (now : ℚ) : TrailStore :=
  aircraft.foldl (recordStep now) st

/-- `trail.positions[trail.positions.length - 1].timestamp`; the store never
holds an empty trail, so the `getD` default is unreachable. -/
def lastTimestamp (t : AircraftTrail) : ℚ :=
  ((t.positions.getLast?).map AircraftPosition.timestamp).getD 0

/-- The eviction phase of `updateAircraftTrails` (lines 252–261 of the SDK):
delete a trail exactly when its hex is not among the active hex codes and its
last position is older than `now - 5 * 60 * 1000`. -/
def evictStale (st : TrailStore) (activeHexCodes : List String) (now : ℚ) : TrailStore :=
  let cutoffTime := now - 5 * 60 * 1000
  st.filter (fun kv =>
    !(!(activeHexCodes.contains kv.1) && decide (lastTimestamp kv.2 < cutoffTime)))

/-- `updateAircraftTrails` of the SDK: record all truthy positions, then evict
stale trails, where the active set is the hexes of the polled aircraft. -/
def updateAircraftTrails (aircraft : List Aircraft) (st : TrailStore) (now : ℚ) : TrailStore :=
  evictStale (recordAll aircraft st now) (aircraft.map Aircraft.hex) now

/-! ## `getAircraftByLocation` (`lib/adsbSdk.ts`, lines 183–201) -/

/-- `LocationQuery` of `types/adsb.ts`. -/
structure LocationQuery where
  lat : ℚ
  lon : ℚ
  dist : ℚ
deriving DecidableEq

/-- The typed failures of the SDK path relevant to the location query:
`AdsbApiError` thrown synchronously, or a failure of the network request
(itself an `AdsbApiError`/`AdsbRateLimitError` produced by `makeRequest`). -/
inductive AdsbFailure where
  | apiError (message : String)
  | network
deriving DecidableEq

/-- The body of an HTTP response as consumed by `getAircraftByLocation`:
only its optional `aircraft` array is read (`response.aircraft || []`). -/
structure AdsbResponse where
  aircraft : Option (List Aircraft) := none

/-- `getAircraftByLocation` of the SDK, with the network modelled as an
oracle: `none` is a failed request, `some resp` a successful one. The
function returns the outcome together with the (possibly updated) trail
store; the radius guard `if (query.dist > 250) throw ...` runs before the
request, so on that path the oracle is never consumed and the store is
untouched. -/
def getAircraftByLocation (st : TrailStore) (query : LocationQuery)
    (response : Option AdsbResponse) (now : ℚ) :
    Except AdsbFailure (List Aircraft) × TrailStore :=
  if query.dist > 250 then
    (.error (.apiError "Distance cannot exceed 250 nautical miles"), st)
  else
    match response with
    | none => (.error .network, st)
    | some resp =>
      let aircraft := resp.aircraft.getD []
      (.ok aircraft, updateAircraftTrails aircraft st now)

/-- `getAllTrails` of the SDK: `new Map(aircraftTrails)` — a map copy whose
entries (key → trail reference) equal the store's entries. Reference
semantics are modelled explicitly by the `World` heap below. -/
def getAllTrails (st : TrailStore) : TrailStore := st

/-! ## Motion Interpolator (`src/apps/adsb/AdsbApp.tsx`) -/

/-- `InterpolatedAircraft` of `AdsbApp.tsx`: the spread aircraft snapshot
(`...ac`, kept as the `ac` field) plus the blend state. -/
structure InterpolatedAircraft where
  ac : Aircraft
  prevLat : Option ℚ := none
  prevLon : Option ℚ := none
  interpolationProgress : Option ℚ := none
  interpolationStartTime : Option ℚ := none
deriving DecidableEq

/-- The first `limitedData.forEach` of the poll update (lines 283–307 of
`AdsbApp.tsx`): for each aircraft with a truthy position, insert a fresh
blend entry — resetting to progress 0 from the previous entry's position if
the hex was already interpolated, and starting at progress 1 otherwise. -/
def interpUpdateStep (prev : List (String × InterpolatedAircraft)) (now : ℚ)
    (acc : List (String × InterpolatedAircraft)) (ac : Aircraft) :
    List (String × InterpolatedAircraft) :=
  if truthyQ ac.lat && truthyQ ac.lon then
    match mapGet? prev ac.hex with
    | some existing =>
      mapSet acc ac.hex ⟨ac, existing.ac.lat, existing.ac.lon, some 0, some now⟩
    | none =>
      mapSet acc ac.hex ⟨ac, ac.lat, ac.lon, some 1, some now⟩
  else acc

/-- The second `limitedData.forEach` of the poll update (lines 310–323 of
`AdsbApp.tsx`, the "clean up" loop): for each polled aircraft whose hex is a
nonempty string and was previously interpolated with a defined progress and a
`blendStartedAt` less than 1000 ms old, re-insert the previous entry with its
progress decayed to `max 0 (1 - elapsed/1000)`. -/
def interpFadeStep (prev : List (String × InterpolatedAircraft)) (now : ℚ)
    (acc : List (String × InterpolatedAircraft)) (ac : Aircraft) :
    List (String × InterpolatedAircraft) :=
  if ac.hex ≠ "" then
    match mapGet? prev ac.hex with
    | some existing =>
      if existing.interpolationProgress.isSome then
        if now - existing.interpolationStartTime.getD 0 < 1000 then
          mapSet acc ac.hex
            { existing with
              interpolationProgress :=
                some (max 0 (1 - (now - existing.interpolationStartTime.getD 0) / 1000)) }
        else acc
      else acc
    | none => acc
  else acc

/-- The `setInterpolatedAircraft` updater run by `fetchAircraft` (lines
279–326 of `AdsbApp.tsx`): a fresh map built by the two `forEach` passes over
the polled data. -/
def updateInterpolated (prev : List (String × InterpolatedAircraft))
    (limitedData : List Aircraft) (now : ℚ) : List (String × InterpolatedAircraft) :=
  limitedData.foldl (interpFadeStep prev now)
    (limitedData.foldl (interpUpdateStep prev now) [])

/-- `getInterpolatedPosition` of `AdsbApp.tsx` (lines 166–177), specialised to
an interpolated entry (for which the `isInterpolatedAircraft` guard is true):
the lerp of the previous and current positions at the current progress when
smooth motion is on and a progress is defined, the raw position otherwise.
The non-null assertions `!` of the source are `Option.getD 0`. -/
def getInterpolatedPosition (enableSmoothMotion : Bool) (ia : InterpolatedAircraft) : ℚ × ℚ :=
  match enableSmoothMotion, ia.interpolationProgress with
  | true, some progress =>
    (ia.prevLat.getD 0 + (ia.ac.lat.getD 0 - ia.prevLat.getD 0) * progress,
     ia.prevLon.getD 0 + (ia.ac.lon.getD 0 - ia.prevLon.getD 0) * progress)
  | _, _ => (ia.ac.lat.getD 0, ia.ac.lon.getD 0)

/-- The ease-out-cubic curve `1 - (1-p)³`, written inline in the animation
loop of `AdsbApp.tsx` (line 405). -/
def easeOutCubic (p : ℚ) : ℚ := 1 - (1 - p) ^ 3

/-- The per-entry body of the animation loop (lines 399–424 of
`AdsbApp.tsx`): when `interpolationStartTime` is truthy and a progress is
defined, advance the progress along the eased curve; when the raw progress
reaches 1, additionally pin the progress to 1 and freeze `prevLat`/`prevLon`
to the current position. Entries failing the guard are copied unchanged. -/
def animateEntry (interpolationDuration now : ℚ)
    (updated : List (String × InterpolatedAircraft))
    (e : String × InterpolatedAircraft) : List (String × InterpolatedAircraft) :=
  let hex := e.1
  let ia := e.2
  if truthyQ ia.interpolationStartTime && ia.interpolationProgress.isSome then
    let elapsed := now - ia.interpolationStartTime.getD 0
    let progress := min (elapsed / interpolationDuration) 1
    let easedProgress := 1 - (1 - progress) ^ 3
    let updated1 := mapSet updated hex { ia with interpolationProgress := some easedProgress }
    if progress ≥ 1 then
      let final := (mapGet? updated1 hex).getD { ia with interpolationProgress := some easedProgress }
      mapSet updated1 hex
        { final with
          interpolationProgress := some 1
          prevLat := final.ac.lat
          prevLon := final.ac.lon }
    else updated1
  else mapSet updated hex ia

/-- One animation tick (the `animate` callback of `AdsbApp.tsx`, lines
394–428): rebuild the interpolation map entry by entry. -/
def animateStep (interpolationDuration now : ℚ)
    (prev : List (String × InterpolatedAircraft)) :
    List (String × InterpolatedAircraft) :=
  prev.foldl (animateEntry interpolationDuration now) []

/-! ## Render filter and stats (`AdsbApp.tsx`) -/

/-- Modelled from the spec: `AIRCRAFT_CATEGORY_GROUPS.HELICOPTERS` of the
current `config.ts` is not under `src/`; the spec's category groupings and
the previous in-repo revision of the app (which classifies category `A7` as a
helicopter) give its value. -/
def AIRCRAFT_CATEGORY_GROUPS_HELICOPTERS : List String := ["A7"]

/-- Modelled from the spec: `AIRCRAFT_CATEGORY_GROUPS.COMMERCIAL` of the
current `config.ts` is not under `src/`; the spec's category groupings and
the previous in-repo revision (which classifies `A3`, `A4`, `A5` as
commercial) give its value. -/
def AIRCRAFT_CATEGORY_GROUPS_COMMERCIAL : List String := ["A3", "A4", "A5"]

/-- JavaScript truthiness of an optional string: `undefined` and the empty
string are falsy. -/
def truthyS : Option String → Bool
  | none => false
  | some s => s != ""

/-- The predicate of the `filteredAircraft` memo (lines 145–154 of
`AdsbApp.tsx`), applied to the underlying aircraft snapshot of each processed
object: drop objects without a truthy position, then apply the category and
military visibility toggles. -/
def aircraftFilterPred (showHelicopters showCommercial showMilitary : Bool)
    (ac : Aircraft) : Bool :=
  if !truthyQ ac.lat || !truthyQ ac.lon then false
  else if ac.category = some (AIRCRAFT_CATEGORY_GROUPS_HELICOPTERS.getD 0 "")
      && !showHelicopters then false
  else if truthyS ac.category
      && AIRCRAFT_CATEGORY_GROUPS_COMMERCIAL.contains (ac.category.getD "")
      && !showCommercial then false
  else if MILITARY_HEX_PREFIXES.any (fun pre => ac.hex.toUpper.startsWith pre)
      && !showMilitary then false
  else true

/-- `filteredAircraft` on the smooth-motion path: the interpolated map's
values, filtered by `aircraftFilterPred` on their aircraft fields. -/
def filteredAircraftSmooth (interpolated : List (String × InterpolatedAircraft))
    (showHelicopters showCommercial showMilitary : Bool) : List InterpolatedAircraft :=
  (interpolated.map Prod.snd).filter
    (fun ia => aircraftFilterPred showHelicopters showCommercial showMilitary ia.ac)

/-- `filteredAircraft` on the raw path (`enableSmoothMotion` off). -/
def filteredAircraftRaw (aircraft : List Aircraft)
    (showHelicopters showCommercial showMilitary : Bool) : List Aircraft :=
  aircraft.filter (aircraftFilterPred showHelicopters showCommercial showMilitary)

/-- The `withPosition` aggregate statistic of `fetchAircraft` (line 335):
`limitedData.filter(ac => ac.lat && ac.lon).length`. -/
def withPositionCount (l : List Aircraft) : ℕ :=
  (l.filter (fun ac => truthyQ ac.lat && truthyQ ac.lon)).length

/-! ## Reference semantics of `getAllTrails` (`new Map(aircraftTrails)`)

`new Map(m)` copies the key → value *entries* of `m` into a fresh `Map`
object; when the values are objects (here: `AircraftTrail`s), the copy holds
the same references. The claim about `getAllTrails` is about aliasing, so the
relevant slice of the JavaScript heap is made explicit: a `World` holds the
live map objects (entries: key → trail address) and the trail objects
(address → record). -/

/-- The relevant slice of the heap: map objects by id, trail objects by
address. -/
structure World where
  maps : List (ℕ × List (String × ℕ))
  trails : List (ℕ × AircraftTrail)
deriving DecidableEq

/-- An id not yet used by any map object of the world. -/
def freshMapId (w : World) : ℕ := ((w.maps.map Prod.fst).foldl max 0) + 1

/-- `getAllTrails()` under reference semantics: allocate a fresh `Map` whose
entries equal the store's entries (`new Map(aircraftTrails)`), leaving the
trail objects shared. Returns the new world and the id of the copy. -/
def getAllTrailsW (w : World) (storeId : ℕ) : World × ℕ :=
  let entries := (mapGet? w.maps storeId).getD []
  let nid := freshMapId w
  (⟨w.maps ++ [(nid, entries)], w.trails⟩, nid)

/-- Apply an update `g` to the object stored at id `mid`, leaving every
other object unchanged (the heap effect of mutating one object in place). -/
def modifyMap {β : Type} : List (ℕ × β) → ℕ → (β → β) → List (ℕ × β)
  | [], _, _ => []
  | (k', v) :: rest, mid, g =>
    (if k' = mid then (k', g v) else (k', v)) :: modifyMap rest mid g

/-- `m.delete(k)` on the map object `mid`: an entry-level mutation of one map
object; no trail object is touched. -/
def mapDeleteEntry (w : World) (mid : ℕ) (k : String) : World :=
  ⟨modifyMap w.maps mid (fun es => es.filter (fun kv => kv.1 ≠ k)), w.trails⟩

/-- `m.set(k, ref)` on the map object `mid`: an entry-level mutation of one
map object; no trail object is touched. -/
def mapSetEntry (w : World) (mid : ℕ) (k : String) (addr : ℕ) : World :=
  ⟨modifyMap w.maps mid (fun es => mapSet es k addr), w.trails⟩

/-- `trail.positions.push(p)` on the trail object at `addr`: an in-place
mutation of a trail object, visible through every reference to it. -/
def trailPush (w : World) (addr : ℕ) (p : AircraftPosition) : World :=
  ⟨w.maps,
   modifyMap w.trails addr (fun t => { t with positions := t.positions ++ [p] })⟩

/-- The observable state of the store map `mid`: its keys paired with the
trail records its references point at. -/
def storeView (w : World) (mid : ℕ) : List (String × Option AircraftTrail) :=
  ((mapGet? w.maps mid).getD []).map (fun kv => (kv.1, mapGet? w.trails kv.2))

/-! ## Helper lemmas -/

theorem mapGet?_mapSet_self {κ β : Type} [DecidableEq κ]
    (m : List (κ × β)) (k : κ) (v : β) : mapGet? (mapSet m k v) k = some v := by
  induction m with
  | nil => simp [mapGet?, mapSet]
  | cons hd tl ih =>
    obtain ⟨k', v'⟩ := hd
    by_cases h : k' = k
    · simp [mapGet?, mapSet, h]
    · simp [mapGet?, mapSet, h, ih]

theorem mapGet?_mapSet_ne {κ β : Type} [DecidableEq κ]
    (m : List (κ × β)) (k k' : κ) (v : β) (h : k ≠ k') :
    mapGet? (mapSet m k v) k' = mapGet? m k' := by
  induction m with
  | nil => simp [mapGet?, mapSet, h]
  | cons hd tl ih =>
    obtain ⟨k'', v''⟩ := hd
    by_cases h2 : k'' = k
    · subst h2
      simp [mapGet?, mapSet, h]
    · simp [mapGet?, mapSet, h2, ih]

/-- A left fold whose step never touches the entry of key `key` leaves the
lookup of `key` unchanged. -/
theorem foldl_mapGet?_skip {κ β α : Type} [DecidableEq κ]
    (f : List (κ × β) → α → List (κ × β)) (key : κ) :
    ∀ (l : List α) (acc : List (κ × β)),
      (∀ acc' b, b ∈ l → mapGet? (f acc' b) key = mapGet? acc' key) →
      mapGet? (l.foldl f acc) key = mapGet? acc key := by
  intro l
  induction l with
  | nil => intro acc _; simp
  | cons hd tl ih =>
    intro acc hstep
    simp only [List.foldl_cons]
    rw [ih (f acc hd) (fun acc' b hb => hstep acc' b (List.mem_cons_of_mem hd hb))]
    exact hstep acc hd (List.mem_cons_self hd tl)

/-! ## C4 — exact-match short-circuit of `latLonToPixel` -/

/-- C4. For every reference point of the configured table, `latLonToPixel`
applied to that point's latitude and longitude returns exactly that point's
pixel coordinates, via the near-zero short-circuit (distance below `1e-4`
degrees, i.e. squared distance below `EPS2`). -/
theorem latLonToPixel_refPoint_exact :
    ∀ p ∈ ADSB_PHILADELPHIA_REFERENCE_POINTS,
      latLonToPixel p.lat p.lon = (p.x, p.y) := by
  intro p hp
  fin_cases hp <;>
    norm_num [latLonToPixel, findClose, ADSB_PHILADELPHIA_REFERENCE_POINTS, dist2, EPS2]

/-- Witness for C4 at the first reference point (City Hall). -/
theorem latLonToPixel_refPoint_exact_witness :
    latLonToPixel (39952351414037274/1000000000000000) (-751636342534157/10000000000000)
      = (557, 441) := by
  have h := latLonToPixel_refPoint_exact
    ⟨"city_hall", 39952351414037274/1000000000000000, -751636342534157/10000000000000,
     557, 441⟩
    (by simp [ADSB_PHILADELPHIA_REFERENCE_POINTS])
  simpa using h

/-! ## C5 — the trail record operation is bounded by `maxLength` -/

/-- C5. One record step on a trail of positive capacity never yields more
than `maxLength` positions, and the resulting positions are exactly the
appended list with its front dropped (so only the oldest entries are lost and
the most recent ones are kept in order); the trail's identity and capacity
are unchanged, so the bound holds across every sequence of record steps. -/
theorem trail_record_bounded (t : AircraftTrail) (p : AircraftPosition)
    (h : 0 < t.maxLength) :
    (recordPosition t p).positions.length ≤ t.maxLength ∧
    (recordPosition t p).positions
      = (t.positions ++ [p]).drop (t.positions.length + 1 - t.maxLength) ∧
    (recordPosition t p).hex = t.hex ∧
    (recordPosition t p).maxLength = t.maxLength := by
  have hne : t.maxLength ≠ 0 := by omega
  by_cases hgt : t.positions.length + 1 > t.maxLength
  · refine ⟨?_, ?_, ?_, ?_⟩ <;>
      simp [recordPosition, jsSliceLast, hgt, hne]
    omega
  · have h0 : t.positions.length + 1 - t.maxLength = 0 := by omega
    refine ⟨?_, ?_, ?_, ?_⟩ <;>
      simp [recordPosition, jsSliceLast, hgt, h0]
    omega

/-- Witness for C5: recording a third position into a trail of capacity 2
drops the oldest position and keeps the two most recent, in order. -/
theorem trail_record_bounded_witness :
    (recordPosition ⟨"t", [⟨1, 1, 0, none, none⟩, ⟨2, 2, 1, none, none⟩], 2⟩
        ⟨3, 3, 2, none, none⟩).positions.length ≤ 2 ∧
    (recordPosition ⟨"t", [⟨1, 1, 0, none, none⟩, ⟨2, 2, 1, none, none⟩], 2⟩
        ⟨3, 3, 2, none, none⟩).positions
      = [⟨2, 2, 1, none, none⟩, ⟨3, 3, 2, none, none⟩] := by
  have h := trail_record_bounded
    ⟨"t", [⟨1, 1, 0, none, none⟩, ⟨2, 2, 1, none, none⟩], 2⟩
    ⟨3, 3, 2, none, none⟩ (by norm_num)
  exact ⟨h.1, by rw [h.2.1]; rfl⟩

/-! ## C6 — eviction removes exactly the inactive, stale trails -/

/-- C6. A trail survives `evictStale` exactly when it was in the store and is
either active or recent (its last recorded timestamp is not older than
`now - 5·60·1000`); in particular a trail whose hex is in the active set is
never removed, regardless of age. -/
theorem evictStale_characterization (st : TrailStore) (active : List String)
    (now : ℚ) (hex : String) (trail : AircraftTrail)
    (_hpos : trail.positions ≠ []) :
    ((hex, trail) ∈ evictStale st active now ↔
      ((hex, trail) ∈ st ∧
        (hex ∈ active ∨ ¬ lastTimestamp trail < now - 5 * 60 * 1000))) ∧
    (hex ∈ active →
      ((hex, trail) ∈ evictStale st active now ↔ (hex, trail) ∈ st)) := by
  have hmain : (hex, trail) ∈ evictStale st active now ↔
      ((hex, trail) ∈ st ∧
        (hex ∈ active ∨ ¬ lastTimestamp trail < now - 5 * 60 * 1000)) := by
    simp [evictStale, List.mem_filter, Decidable.not_and_iff_or_not, or_comm]
  exact ⟨hmain, fun ha => by rw [hmain]; tauto⟩

/-- Witness for C6: with active set `{"a"}` at `now = 400000`, the active
trail `"a"` is kept even though its only position (timestamp 0) is far older
than the 5-minute cutoff. -/
theorem evictStale_characterization_witness :
    ("a", (⟨"a", [⟨1, 1, 0, none, none⟩], 50⟩ : AircraftTrail)) ∈
      evictStale [("a", ⟨"a", [⟨1, 1, 0, none, none⟩], 50⟩)] ["a"] 400000 := by
  have h := evictStale_characterization
    [("a", ⟨"a", [⟨1, 1, 0, none, none⟩], 50⟩)] ["a"] 400000 "a"
    ⟨"a", [⟨1, 1, 0, none, none⟩], 50⟩ (by simp)
  exact (h.2 (by simp)).mpr (by simp)

/-! ## C9 — the 250 nautical-mile radius guard -/

/-- C9. A location query whose radius exceeds 250 fails with the typed
`AdsbApiError` before the network oracle is consulted (the outcome is the
same whatever the network would have answered) and leaves the trail store
unchanged; a query with radius at most 250 passes the guard, and its outcome
is the fetch path applied to the network's answer. -/
theorem getAircraftByLocation_radius_guard (st : TrailStore)
    (query : LocationQuery) (now : ℚ) :
    (query.dist > 250 →
      ∀ r₁ r₂ : Option AdsbResponse,
        getAircraftByLocation st query r₁ now = getAircraftByLocation st query r₂ now ∧
        (getAircraftByLocation st query r₁ now).1
          = .error (.apiError "Distance cannot exceed 250 nautical miles") ∧
        (getAircraftByLocation st query r₁ now).2 = st) ∧
    (query.dist ≤ 250 →
      (∀ resp : AdsbResponse,
        getAircraftByLocation st query (some resp) now
          = (.ok (resp.aircraft.getD []),
             updateAircraftTrails (resp.aircraft.getD []) st now)) ∧
      getAircraftByLocation st query none now = (.error .network, st)) := by
  constructor
  · intro hgt r₁ r₂
    refine ⟨?_, ?_, ?_⟩ <;> simp [getAircraftByLocation, hgt]
  · intro hle
    have hng : ¬ query.dist > 250 := not_lt.mpr hle
    exact ⟨fun resp => by simp [getAircraftByLocation, hng],
           by simp [getAircraftByLocation, hng]⟩

/-- Witness for C9: a radius-300 query is rejected identically whether the
network would have succeeded or failed, and the store `[]` is untouched. -/
theorem getAircraftByLocation_radius_guard_witness :
    getAircraftByLocation [] ⟨39, -75, 300⟩ (some ⟨some [{ hex := "a" }]⟩) 0
      = getAircraftByLocation [] ⟨39, -75, 300⟩ none 0 ∧
    (getAircraftByLocation [] ⟨39, -75, 300⟩ none 0).2 = [] := by
  have h1 := (getAircraftByLocation_radius_guard [] ⟨39, -75, 300⟩ 0).1
    (by norm_num) (some ⟨some [{ hex := "a" }]⟩) none
  have h2 := (getAircraftByLocation_radius_guard [] ⟨39, -75, 300⟩ 0).1
    (by norm_num) none none
  exact ⟨h1.1, h2.2.2⟩

/-! ## C10 — a zero coordinate is treated as an absent position -/

/-- C10. An aircraft whose latitude or longitude is absent or exactly 0 is
skipped by every position-sensitive point of the pipeline: the trail
recording phase leaves the store exactly as if the aircraft were not in the
poll, the render filter rejects it, and the `withPosition` statistic does not
count it — so a zero coordinate is indistinguishable from an absent one at
all three points. -/
theorem zero_position_treated_absent (ac : Aircraft)
    (hz : ac.lat = none ∨ ac.lat = some 0 ∨ ac.lon = none ∨ ac.lon = some 0)
    (l₁ l₂ : List Aircraft) (st : TrailStore) (now : ℚ)
    (showHelicopters showCommercial showMilitary : Bool) :
    recordAll (l₁ ++ ac :: l₂) st now = recordAll (l₁ ++ l₂) st now ∧
    aircraftFilterPred showHelicopters showCommercial showMilitary ac = false ∧
    withPositionCount (l₁ ++ ac :: l₂) = withPositionCount (l₁ ++ l₂) := by
  have htr : (truthyQ ac.lat && truthyQ ac.lon) = false := by
    rcases hz with h | h | h | h <;> simp [truthyQ, h]
  have hskip : recordStep now (List.foldl (recordStep now) st l₁) ac
      = List.foldl (recordStep now) st l₁ := by
    simp [recordStep, htr]
  refine ⟨?_, ?_, ?_⟩
  · simp only [recordAll, List.foldl_append, List.foldl_cons, hskip]
  · cases hl : truthyQ ac.lat <;> cases ho : truthyQ ac.lon <;>
      simp_all [aircraftFilterPred]
  · simp [withPositionCount, htr, List.filter_append, List.filter_cons]

/-- Witness for C10 at an aircraft with `lat = 0`: the store, the filter and
the statistic all behave as if it were absent. -/
theorem zero_position_treated_absent_witness :
    recordAll [{ hex := "x", lat := some 0, lon := some 5 },
               { hex := "y", lat := some 1, lon := some 1 }] [] 0
      = recordAll [{ hex := "y", lat := some 1, lon := some 1 }] [] 0 ∧
    aircraftFilterPred true true true { hex := "x", lat := some 0, lon := some 5 } = false ∧
    withPositionCount [{ hex := "x", lat := some 0, lon := some 5 },
                       { hex := "y", lat := some 1, lon := some 1 }]
      = withPositionCount [{ hex := "y", lat := some 1, lon := some 1 }] :=
  zero_position_treated_absent { hex := "x", lat := some 0, lon := some 5 }
    (Or.inr (Or.inl rfl)) [] [{ hex := "y", lat := some 1, lon := some 1 }] [] 0
    true true true

/-! ## C2 — aircraft missing from the latest poll (code bug) -/

/-- C2 (evaluation at the failing input). The previous interpolation map
holds `"abc"` with a blend started at time 0 and the latest poll is empty;
at `now = 500` — well inside the ~1000 ms grace window — the poll update
returns the empty map: the missing aircraft is dropped immediately instead
of being retained with a decaying `blendProgress`. The "clean up" loop of
`fetchAircraft` iterates `limitedData` (the latest poll result) rather than
the previous interpolation map, so an id absent from the poll can never be
re-inserted, contradicting the loop's own comments. -/
theorem interp_missing_removed_immediately :
    updateInterpolated
      [("abc", ⟨{ hex := "abc", lat := some 1, lon := some 1 },
                some 1, some 1, some 1, some 0⟩)] [] 500 = [] ∧
    mapGet? (updateInterpolated
      [("abc", ⟨{ hex := "abc", lat := some 1, lon := some 1 },
                some 1, some 1, some 1, some 0⟩)] [] 500) "abc" = none :=
  ⟨rfl, rfl⟩

/-! ## C1 — the poll update of the interpolation map -/

theorem interpUpdateStep_get_ne (prev : List (String × InterpolatedAircraft))
    (now : ℚ) (acc : List (String × InterpolatedAircraft)) (b : Aircraft)
    (h : String) (hne : b.hex ≠ h) :
    mapGet? (interpUpdateStep prev now acc b) h = mapGet? acc h := by
  cases htr : (truthyQ b.lat && truthyQ b.lon)
  · simp [interpUpdateStep, htr]
  · cases hexist : mapGet? prev b.hex <;>
      simp [interpUpdateStep, htr, hexist, mapGet?_mapSet_ne _ _ _ _ hne]

theorem interpFadeStep_get_ne (prev : List (String × InterpolatedAircraft))
    (now : ℚ) (acc : List (String × InterpolatedAircraft)) (b : Aircraft)
    (h : String) (hne : b.hex ≠ h) :
    mapGet? (interpFadeStep prev now acc b) h = mapGet? acc h := by
  by_cases hh : b.hex ≠ ""
  · cases hexist : mapGet? prev b.hex with
    | none => simp [interpFadeStep, hh, hexist]
    | some ex =>
      cases hps : ex.interpolationProgress.isSome
      · simp [interpFadeStep, hh, hexist, hps]
      · by_cases htime : now - ex.interpolationStartTime.getD 0 < 1000
        · simp [interpFadeStep, hh, hexist, hps, htime,
                mapGet?_mapSet_ne _ _ _ _ hne]
        · simp [interpFadeStep, hh, hexist, hps, htime]
  · simp [interpFadeStep, hh]

/-- C1 (amended). For a poll update whose data contains exactly one aircraft
of hex `ac.hex` with a truthy position:
* an id absent from the previous interpolation map is created with
  `blendProgress = 1` (rendered immediately at its true position);
* an id present in the previous map — provided the update happens at least
  1000 ms after that entry's `blendStartedAt` — is reset with
  `previousPosition` set to the previous entry's *current* (target) position
  `(ex.ac.lat, ex.ac.lon)`, `blendProgress = 0` and `blendStartedAt = now`;
* an update within 1000 ms of the previous `blendStartedAt` is instead
  overwritten by the clean-up loop with the previous entry, its progress
  decayed to `max 0 (1 - elapsed/1000)`. -/
theorem interp_poll_update_states (prev : List (String × InterpolatedAircraft))
    (l₁ l₂ : List Aircraft) (ac : Aircraft) (now : ℚ)
    (huniq : ∀ b ∈ l₁ ++ l₂, b.hex ≠ ac.hex)
    (hlat : truthyQ ac.lat = true) (hlon : truthyQ ac.lon = true) :
    (mapGet? prev ac.hex = none →
      mapGet? (updateInterpolated prev (l₁ ++ ac :: l₂) now) ac.hex
        = some ⟨ac, ac.lat, ac.lon, some 1, some now⟩) ∧
    (∀ ex t, mapGet? prev ac.hex = some ex →
      ex.interpolationStartTime = some t → 1000 ≤ now - t →
      mapGet? (updateInterpolated prev (l₁ ++ ac :: l₂) now) ac.hex
        = some ⟨ac, ex.ac.lat, ex.ac.lon, some 0, some now⟩) ∧
    (∀ ex t p, mapGet? prev ac.hex = some ex →
      ex.interpolationStartTime = some t → ex.interpolationProgress = some p →
      now - t < 1000 → ac.hex ≠ "" →
      mapGet? (updateInterpolated prev (l₁ ++ ac :: l₂) now) ac.hex
        = some { ex with interpolationProgress := some (max 0 (1 - (now - t) / 1000)) }) := by
  have huniq₁ : ∀ b ∈ l₁, b.hex ≠ ac.hex :=
    fun b hb => huniq b (List.mem_append_left _ hb)
  have huniq₂ : ∀ b ∈ l₂, b.hex ≠ ac.hex :=
    fun b hb => huniq b (List.mem_append_right _ hb)
  -- The final lookup reduces to the two middle steps applied to the fold
  -- prefixes (entries of other hexes never touch this key).
  have hred : ∀ S : List (String × InterpolatedAircraft),
      mapGet? ((l₁ ++ ac :: l₂).foldl (interpFadeStep prev now) S) ac.hex
        = mapGet? (interpFadeStep prev now
            (l₁.foldl (interpFadeStep prev now) S) ac) ac.hex := by
    intro S
    rw [List.foldl_append, List.foldl_cons]
    exact foldl_mapGet?_skip _ _ l₂ _
      (fun a b hb => interpFadeStep_get_ne prev now a b ac.hex (huniq₂ b hb))
  have hred1 : mapGet? ((l₁ ++ ac :: l₂).foldl (interpUpdateStep prev now) []) ac.hex
      = mapGet? (interpUpdateStep prev now
          (l₁.foldl (interpUpdateStep prev now) []) ac) ac.hex := by
    rw [List.foldl_append, List.foldl_cons]
    exact foldl_mapGet?_skip _ _ l₂ _
      (fun a b hb => interpUpdateStep_get_ne prev now a b ac.hex (huniq₂ b hb))
  refine ⟨?_, ?_, ?_⟩
  · intro hnone
    have hS1 : mapGet? ((l₁ ++ ac :: l₂).foldl (interpUpdateStep prev now) []) ac.hex
        = some ⟨ac, ac.lat, ac.lon, some 1, some now⟩ := by
      rw [hred1]
      simp [interpUpdateStep, hlat, hlon, hnone, mapGet?_mapSet_self]
    rw [updateInterpolated, hred]
    have hfade : ∀ a, mapGet? (interpFadeStep prev now a ac) ac.hex = mapGet? a ac.hex := by
      intro a
      by_cases hh : ac.hex ≠ "" <;> simp [interpFadeStep, hh, hnone]
    rw [hfade]
    rw [foldl_mapGet?_skip _ _ l₁ _
      (fun a b hb => interpFadeStep_get_ne prev now a b ac.hex (huniq₁ b hb))]
    exact hS1
  · intro ex t hex hst htime
    have hS1 : mapGet? ((l₁ ++ ac :: l₂).foldl (interpUpdateStep prev now) []) ac.hex
        = some ⟨ac, ex.ac.lat, ex.ac.lon, some 0, some now⟩ := by
      rw [hred1]
      simp [interpUpdateStep, hlat, hlon, hex, mapGet?_mapSet_self]
    rw [updateInterpolated, hred]
    have hnotlt : ¬ now - ex.interpolationStartTime.getD 0 < 1000 := by
      rw [hst]
      simp only [Option.getD_some]
      linarith
    have hfade : ∀ a, mapGet? (interpFadeStep prev now a ac) ac.hex = mapGet? a ac.hex := by
      intro a
      by_cases hh : ac.hex ≠ ""
      · cases hps : ex.interpolationProgress.isSome <;>
          simp [interpFadeStep, hh, hex, hps, hnotlt]
      · simp [interpFadeStep, hh]
    rw [hfade]
    rw [foldl_mapGet?_skip _ _ l₁ _
      (fun a b hb => interpFadeStep_get_ne prev now a b ac.hex (huniq₁ b hb))]
    exact hS1
  · intro ex t p hex hst hps htime hh
    rw [updateInterpolated, hred]
    have hlt : now - ex.interpolationStartTime.getD 0 < 1000 := by
      rw [hst]
      simpa using htime
    have hps' : ex.interpolationProgress.isSome = true := by
      rw [hps]; rfl
    have : mapGet? (interpFadeStep prev now
        (l₁.foldl (interpFadeStep prev now)
          ((l₁ ++ ac :: l₂).foldl (interpUpdateStep prev now) []))
        ac) ac.hex
        = some { ex with interpolationProgress := some (max 0 (1 - (now - ex.interpolationStartTime.getD 0) / 1000)) } := by
      simp [interpFadeStep, hh, hex, hps', hlt, mapGet?_mapSet_self]
    rw [this, hst]
    simp

/-- Witness for C1 at a concrete reset: the previous entry of `"a"` (target
position 10, blend started at 1000) is reset at `now = 5000` to blend from
position 10 toward the new position 20. -/
theorem interp_poll_update_states_witness :
    mapGet? (updateInterpolated
        [("a", ⟨{ hex := "a", lat := some 10, lon := some 10 },
                some 0, some 0, some (1/2), some 1000⟩)]
        [{ hex := "a", lat := some 20, lon := some 20 }] 5000) "a"
      = some ⟨{ hex := "a", lat := some 20, lon := some 20 },
              some 10, some 10, some 0, some 5000⟩ := by
  have h := (interp_poll_update_states
      [("a", ⟨{ hex := "a", lat := some 10, lon := some 10 },
              some 0, some 0, some (1/2), some 1000⟩)]
      [] [] { hex := "a", lat := some 20, lon := some 20 } 5000
      (by simp) (by norm_num [truthyQ]) (by norm_num [truthyQ])).2.1
  exact h ⟨{ hex := "a", lat := some 10, lon := some 10 },
           some 0, some 0, some (1/2), some 1000⟩ 1000
    (by simp [mapGet?]) rfl (by norm_num)

/-- C1 (counterexample to the claim as stated). For the previous entry of
`"a"` — previous position 0, current position 10, `blendProgress = 1/2` — the
last *rendered* latitude is the lerp `0 + (10-0)·(1/2) = 5`; yet the poll
update at `now = 5000` (with new position 20) sets `previousPosition` to 10,
the previous entry's current position, which differs from 5. -/
theorem interp_prevPosition_not_lastRendered :
    (getInterpolatedPosition true
        ⟨{ hex := "a", lat := some 10, lon := some 10 },
         some 0, some 0, some (1/2), some 1000⟩).1 = 5 ∧
    (mapGet? (updateInterpolated
        [("a", ⟨{ hex := "a", lat := some 10, lon := some 10 },
                some 0, some 0, some (1/2), some 1000⟩)]
        [{ hex := "a", lat := some 20, lon := some 20 }] 5000) "a").map
        InterpolatedAircraft.prevLat = some (some 10) ∧
    ((10 : ℚ) ≠ 5) := by
  refine ⟨by norm_num [getInterpolatedPosition], ?_, by norm_num⟩
  norm_num [updateInterpolated, interpUpdateStep, interpFadeStep,
    mapGet?, mapSet, truthyQ]

/-! ## C8 — the animation tick advances the eased blend -/

theorem animateEntry_get_ne (dur now : ℚ)
    (acc : List (String × InterpolatedAircraft))
    (e : String × InterpolatedAircraft) (h : String) (hne : e.1 ≠ h) :
    mapGet? (animateEntry dur now acc e) h = mapGet? acc h := by
  cases hc : (truthyQ e.2.interpolationStartTime && e.2.interpolationProgress.isSome)
  · simp [animateEntry, hc, mapGet?_mapSet_ne _ _ _ _ hne]
  · by_cases hp : min ((now - e.2.interpolationStartTime.getD 0) / dur) 1 ≥ 1
    · simp [animateEntry, hc, hp, mapGet?_mapSet_ne _ _ _ _ hne]
    · simp [animateEntry, hc, hp, mapGet?_mapSet_ne _ _ _ _ hne]

/-- C8. On an animation tick, an interpolated entry with a truthy
`blendStartedAt = t` and a defined progress is advanced to exactly
`easeOutCubic (min ((now - t) / blendDurationMillis) 1)` — in particular the
progress is exactly 1 as soon as the blend duration has elapsed — and on
completion `previousPosition` is frozen to the entry's current position. -/
theorem animate_easeOutCubic_progress
    (m₁ m₂ : List (String × InterpolatedAircraft)) (h : String)
    (ia : InterpolatedAircraft) (dur now t : ℚ)
    (hdisj : ∀ e ∈ m₁ ++ m₂, e.1 ≠ h)
    (ht : ia.interpolationStartTime = some t) (ht0 : t ≠ 0)
    (hps : ia.interpolationProgress.isSome = true) (hd : 0 < dur) :
    ∃ out : InterpolatedAircraft,
      mapGet? (animateStep dur now (m₁ ++ (h, ia) :: m₂)) h = some out ∧
      out.interpolationProgress = some (easeOutCubic (min ((now - t) / dur) 1)) ∧
      (dur ≤ now - t →
        out = { ia with interpolationProgress := some 1,
                        prevLat := ia.ac.lat, prevLon := ia.ac.lon }) := by
  have hdisj₁ : ∀ e ∈ m₁, e.1 ≠ h :=
    fun e he => hdisj e (List.mem_append_left _ he)
  have hdisj₂ : ∀ e ∈ m₂, e.1 ≠ h :=
    fun e he => hdisj e (List.mem_append_right _ he)
  have hcond : (truthyQ ia.interpolationStartTime && ia.interpolationProgress.isSome) = true := by
    rw [ht, hps]
    simp [truthyQ, ht0]
  have hred : mapGet? (animateStep dur now (m₁ ++ (h, ia) :: m₂)) h
      = mapGet? (animateEntry dur now
          (m₁.foldl (animateEntry dur now) []) (h, ia)) h := by
    rw [animateStep, List.foldl_append, List.foldl_cons]
    exact foldl_mapGet?_skip _ _ m₂ _
      (fun a e he => animateEntry_get_ne dur now a e h (hdisj₂ e he))
  by_cases hge : min ((now - t) / dur) 1 ≥ 1
  · refine ⟨{ ia with interpolationProgress := some 1, prevLat := ia.ac.lat, prevLon := ia.ac.lon }, ?_, ?_, fun _ => rfl⟩
    · rw [hred]
      have hget : ia.interpolationStartTime.getD 0 = t := by rw [ht]; rfl
      simp only [animateEntry, hcond, if_true, hget, hge, if_pos,
        mapGet?_mapSet_self, Option.getD_some]
    · have hmin : min ((now - t) / dur) 1 = 1 :=
        le_antisymm (min_le_right _ _) hge
      rw [hmin]
      norm_num [easeOutCubic]
  · refine ⟨{ ia with interpolationProgress := some (1 - (1 - min ((now - t) / dur) 1) ^ 3) }, ?_, ?_, ?_⟩
    · rw [hred]
      have hget : ia.interpolationStartTime.getD 0 = t := by rw [ht]; rfl
      simp only [animateEntry, hcond, if_true, hget, hge, if_neg,
        mapGet?_mapSet_self, not_false_iff]
    · simp [easeOutCubic]
    · intro hdone
      exfalso
      apply hge
      have : (1:ℚ) ≤ (now - t) / dur := (one_le_div hd).mpr hdone
      exact le_min this le_rfl

/-- Witness for C8: for the entry of `"a"` with blend started at 100 and
duration 1000, the tick at `now = 1100` (exactly the blend duration later)
yields progress exactly 1 and freezes the previous position to the current
one. -/
theorem animate_easeOutCubic_progress_witness :
    ∃ out : InterpolatedAircraft,
      mapGet? (animateStep 1000 1100
          [("a", ⟨{ hex := "a", lat := some 7, lon := some 8 },
                  some 1, some 2, some 0, some 100⟩)]) "a" = some out ∧
      out.interpolationProgress = some (easeOutCubic (min ((1100 - 100) / 1000) 1)) ∧
      ((1000 : ℚ) ≤ 1100 - 100 →
        out = { (⟨{ hex := "a", lat := some 7, lon := some 8 },
                  some 1, some 2, some 0, some 100⟩ : InterpolatedAircraft) with
                interpolationProgress := some 1,
                prevLat := some 7, prevLon := some 8 }) :=
  animate_easeOutCubic_progress [] [] "a"
    ⟨{ hex := "a", lat := some 7, lon := some 8 }, some 1, some 2, some 0, some 100⟩
    1000 1100 100 (by simp) rfl (by norm_num) rfl (by norm_num)

/-! ## C7 — `getAllTrails` is a shallow copy -/

theorem mapGet?_append_of_some {κ β : Type} [DecidableEq κ]
    (m₁ m₂ : List (κ × β)) (k : κ) (v : β) (h : mapGet? m₁ k = some v) :
    mapGet? (m₁ ++ m₂) k = some v := by
  induction m₁ with
  | nil => simp [mapGet?] at h
  | cons hd tl ih =>
    obtain ⟨k', v'⟩ := hd
    by_cases hk : k' = k
    · simp_all [mapGet?]
    · simp_all [mapGet?, hk]

theorem mapGet?_append_of_none {κ β : Type} [DecidableEq κ]
    (m₁ m₂ : List (κ × β)) (k : κ) (h : mapGet? m₁ k = none) :
    mapGet? (m₁ ++ m₂) k = mapGet? m₂ k := by
  induction m₁ with
  | nil => simp
  | cons hd tl ih =>
    obtain ⟨k', v'⟩ := hd
    by_cases hk : k' = k
    · simp_all [mapGet?]
    · simp_all [mapGet?, hk]

theorem mapGet?_isSome_of_mem_keys {κ β : Type} [DecidableEq κ]
    (m : List (κ × β)) (k : κ) (h : k ∈ m.map Prod.fst) :
    ∃ v, mapGet? m k = some v := by
  induction m with
  | nil => simp at h
  | cons hd tl ih =>
    obtain ⟨k', v'⟩ := hd
    by_cases hk : k' = k
    · exact ⟨v', by simp [mapGet?, hk]⟩
    · simp only [List.map_cons, List.mem_cons] at h
      rcases h with h | h
      · exact absurd h.symm hk
      · obtain ⟨v, hv⟩ := ih h
        exact ⟨v, by simp [mapGet?, hk, hv]⟩

theorem mapGet?_eq_none_of_not_mem_keys {κ β : Type} [DecidableEq κ]
    (m : List (κ × β)) (k : κ) (h : k ∉ m.map Prod.fst) :
    mapGet? m k = none := by
  induction m with
  | nil => rfl
  | cons hd tl ih =>
    obtain ⟨k', v'⟩ := hd
    simp only [List.map_cons, List.mem_cons] at h
    push_neg at h
    have hk : k' ≠ k := fun hEq => h.1 hEq.symm
    simp [mapGet?, hk, ih h.2]

/-- Modifying the object stored at one id leaves the lookup of every other
id unchanged. -/
theorem mapGet?_modify_ne {β : Type} (m : List (ℕ × β)) (mid k : ℕ)
    (g : β → β) (h : k ≠ mid) :
    mapGet? (modifyMap m mid g) k = mapGet? m k := by
  induction m with
  | nil => rfl
  | cons hd tl ih =>
    obtain ⟨k', v'⟩ := hd
    by_cases hmid : k' = mid
    · have hks : k' ≠ k := fun hEq => h (hEq ▸ hmid)
      simp only [modifyMap]
      rw [if_pos hmid]
      simp [mapGet?, hks, ih]
    · simp only [modifyMap]
      rw [if_neg hmid]
      by_cases hk : k' = k <;> simp [mapGet?, hk, ih]

theorem init_le_foldl_max (l : List ℕ) : ∀ init : ℕ, init ≤ l.foldl max init := by
  induction l with
  | nil => intro init; simp
  | cons x xs ih =>
    intro init
    calc init ≤ max init x := le_max_left _ _
    _ ≤ xs.foldl max (max init x) := ih _

theorem mem_le_foldl_max (l : List ℕ) (a : ℕ) (ha : a ∈ l) :
    ∀ init : ℕ, a ≤ l.foldl max init := by
  induction l with
  | nil => cases ha
  | cons x xs ih =>
    intro init
    rcases List.mem_cons.mp ha with h | h
    · subst h
      calc a ≤ max init a := le_max_right _ _
      _ ≤ xs.foldl max (max init a) := init_le_foldl_max _ _
    · exact ih h _

/-- C7 (amended). `getAllTrails` builds a fresh map object whose entries are
a copy of the store's: the copy initially shows the same trails as the store,
and entry-level mutations of the copy (deleting or setting an entry) never
change the store's observable trails — but, the copy being shallow, the trail
objects themselves stay shared (see the counterexample theorem). -/
theorem getAllTrails_shallow_copy (w : World) (storeId : ℕ)
    (hmem : storeId ∈ w.maps.map Prod.fst) :
    (getAllTrailsW w storeId).2 ≠ storeId ∧
    storeView (getAllTrailsW w storeId).1 (getAllTrailsW w storeId).2
      = storeView w storeId ∧
    storeView (getAllTrailsW w storeId).1 storeId = storeView w storeId ∧
    (∀ k, storeView
        (mapDeleteEntry (getAllTrailsW w storeId).1 (getAllTrailsW w storeId).2 k)
        storeId = storeView w storeId) ∧
    (∀ k addr, storeView
        (mapSetEntry (getAllTrailsW w storeId).1 (getAllTrailsW w storeId).2 k addr)
        storeId = storeView w storeId) := by
  have hlt : storeId < freshMapId w :=
    Nat.lt_succ_of_le (mem_le_foldl_max _ _ hmem 0)
  have hne : freshMapId w ≠ storeId := fun hEq => absurd hEq.le (not_le.mpr hlt)
  have hfresh_not_mem : freshMapId w ∉ w.maps.map Prod.fst := by
    intro hmem'
    exact absurd (mem_le_foldl_max _ _ hmem' 0) (by simp [freshMapId])
  obtain ⟨entries, hentries⟩ := mapGet?_isSome_of_mem_keys w.maps storeId hmem
  have hsnap : mapGet? (getAllTrailsW w storeId).1.maps (getAllTrailsW w storeId).2
      = some ((mapGet? w.maps storeId).getD []) := by
    show mapGet? (w.maps ++ [(freshMapId w, (mapGet? w.maps storeId).getD [])])
        (freshMapId w) = _
    rw [mapGet?_append_of_none _ _ _
      (mapGet?_eq_none_of_not_mem_keys _ _ hfresh_not_mem)]
    simp [mapGet?]
  have hstore : mapGet? (getAllTrailsW w storeId).1.maps storeId = some entries := by
    show mapGet? (w.maps ++ _) storeId = some entries
    exact mapGet?_append_of_some _ _ _ _ hentries
  refine ⟨hne, ?_, ?_, ?_, ?_⟩
  · show storeView _ _ = _
    rw [storeView, hsnap, storeView]
    rfl
  · rw [storeView, hstore, storeView, hentries]
    rfl
  · intro k
    simp only [storeView, mapDeleteEntry]
    rw [show (getAllTrailsW w storeId).2 = freshMapId w from rfl]
    rw [mapGet?_modify_ne _ _ _ _ (fun hEq => hne hEq.symm), hstore, hentries]
    rfl
  · intro k addr
    simp only [storeView, mapSetEntry]
    rw [show (getAllTrailsW w storeId).2 = freshMapId w from rfl]
    rw [mapGet?_modify_ne _ _ _ _ (fun hEq => hne hEq.symm), hstore, hentries]
    rfl

/-- Witness for C7 at a concrete one-trail world: the copy gets a fresh map
id, and deleting the copy's `"a"` entry leaves the store's view unchanged. -/
theorem getAllTrails_shallow_copy_witness :
    (getAllTrailsW ⟨[(0, [("a", 0)])],
        [(0, ⟨"a", [⟨1, 2, 100, none, none⟩], 50⟩)]⟩ 0).2 ≠ 0 ∧
    storeView
        (mapDeleteEntry
          (getAllTrailsW ⟨[(0, [("a", 0)])],
              [(0, ⟨"a", [⟨1, 2, 100, none, none⟩], 50⟩)]⟩ 0).1
          (getAllTrailsW ⟨[(0, [("a", 0)])],
              [(0, ⟨"a", [⟨1, 2, 100, none, none⟩], 50⟩)]⟩ 0).2 "a") 0
      = storeView ⟨[(0, [("a", 0)])],
          [(0, ⟨"a", [⟨1, 2, 100, none, none⟩], 50⟩)]⟩ 0 :=
  ⟨(getAllTrails_shallow_copy
      ⟨[(0, [("a", 0)])], [(0, ⟨"a", [⟨1, 2, 100, none, none⟩], 50⟩)]⟩ 0 (by simp)).1,
   (getAllTrails_shallow_copy
      ⟨[(0, [("a", 0)])], [(0, ⟨"a", [⟨1, 2, 100, none, none⟩], 50⟩)]⟩ 0 (by simp)).2.2.2.1 "a"⟩

/-- C7 (counterexample to the claim as stated). The trail address 0 is
reachable through the snapshot returned by `getAllTrails`; pushing a position
onto the trail object at that address changes the *store's* observable
trails, so a mutation of a trail reachable through the returned map does
change the store's state. -/
theorem getAllTrails_shared_trail_mutation :
    mapGet? ((mapGet?
        (getAllTrailsW ⟨[(0, [("a", 0)])],
            [(0, ⟨"a", [⟨1, 2, 100, none, none⟩], 50⟩)]⟩ 0).1.maps
        (getAllTrailsW ⟨[(0, [("a", 0)])],
            [(0, ⟨"a", [⟨1, 2, 100, none, none⟩], 50⟩)]⟩ 0).2).getD []) "a"
      = some 0 ∧
    storeView
        (trailPush
          (getAllTrailsW ⟨[(0, [("a", 0)])],
              [(0, ⟨"a", [⟨1, 2, 100, none, none⟩], 50⟩)]⟩ 0).1
          0 ⟨3, 4, 200, none, none⟩) 0
      ≠ storeView ⟨[(0, [("a", 0)])],
          [(0, ⟨"a", [⟨1, 2, 100, none, none⟩], 50⟩)]⟩ 0 := by
  constructor
  · rfl
  · simp [storeView, trailPush, getAllTrailsW, freshMapId, mapGet?]

/-! ## C3 — inverse-squared-distance weighting inside the reference box -/

/-- C3. For a query point inside the lat/lon bounding box of the reference
points whose squared distance to every reference point is at least `EPS2`
(i.e. distance at least `1e-4` degrees), `latLonToPixel` returns exactly the
inverse-squared-distance weighted average `(Σ xᵢ·(1/dᵢ²) / Σ 1/dᵢ²,
Σ yᵢ·(1/dᵢ²) / Σ 1/dᵢ²)`, and consequently the result lies between the
minimum and maximum reference pixel coordinates on each axis. -/
theorem latLonToPixel_idw_formula (lat lon : ℚ)
    (hlat1 : refMinLat ≤ lat) (hlat2 : lat ≤ refMaxLat)
    (hlon1 : refMinLon ≤ lon) (hlon2 : lon ≤ refMaxLon)
    (hfar : ∀ p ∈ ADSB_PHILADELPHIA_REFERENCE_POINTS, EPS2 ≤ dist2 lat lon p) :
    latLonToPixel lat lon
      = (weightedX lat lon / totalWeight lat lon,
         weightedY lat lon / totalWeight lat lon) ∧
    refMinX ≤ (latLonToPixel lat lon).1 ∧ (latLonToPixel lat lon).1 ≤ refMaxX ∧
    refMinY ≤ (latLonToPixel lat lon).2 ∧ (latLonToPixel lat lon).2 ≤ refMaxY := by
  simp only [ADSB_PHILADELPHIA_REFERENCE_POINTS, List.mem_cons, List.mem_singleton,
    forall_eq_or_imp, forall_eq, List.not_mem_nil, false_implies, implies_true,
    and_true] at hfar
  obtain ⟨h1, h2, h3, h4⟩ := hfar
  have heps : (0:ℚ) < EPS2 := by norm_num [EPS2]
  have hp1 := lt_of_lt_of_le heps h1
  have hp2 := lt_of_lt_of_le heps h2
  have hp3 := lt_of_lt_of_le heps h3
  have hp4 := lt_of_lt_of_le heps h4
  have hw1 := one_div_pos.mpr hp1
  have hw2 := one_div_pos.mpr hp2
  have hw3 := one_div_pos.mpr hp3
  have hw4 := one_div_pos.mpr hp4
  have hfc : findClose lat lon ADSB_PHILADELPHIA_REFERENCE_POINTS = none := by
    simp only [ADSB_PHILADELPHIA_REFERENCE_POINTS, findClose]
    rw [if_neg (not_lt.mpr h1), if_neg (not_lt.mpr h2),
        if_neg (not_lt.mpr h3), if_neg (not_lt.mpr h4)]
  have htW : totalWeight lat lon
      = 1 / dist2 lat lon ⟨"city_hall", 39952351414037274/1000000000000000, -751636342534157/10000000000000, 557, 441⟩
      + (1 / dist2 lat lon ⟨"west_lehigh_ave", 3999822295610221/100000000000000, -7518745246451326/100000000000000, 400, 49⟩
      + (1 / dist2 lat lon ⟨"wiggins_marina", 399421035968403/10000000000000, -7513209582939922/100000000000000, 76353/100, 52756/100⟩
      + (1 / dist2 lat lon ⟨"camden_petty_island_guard_house", 3996757021845487/100000000000000, -7508649891063769/100000000000000, 106253/100, 30956/100⟩ + 0))) := by
    simp [totalWeight, ADSB_PHILADELPHIA_REFERENCE_POINTS]
  have htWpos : 0 < totalWeight lat lon := by
    rw [htW]; linarith
  have hcond : ¬(totalWeight lat lon = 0 ∨ lat < refMinLat ∨ lat > refMaxLat ∨
      lon < refMinLon ∨ lon > refMaxLon) := by
    push_neg
    exact ⟨htWpos.ne', hlat1, hlat2, hlon1, hlon2⟩
  have heval : latLonToPixel lat lon
      = (weightedX lat lon / totalWeight lat lon,
         weightedY lat lon / totalWeight lat lon) := by
    simp only [latLonToPixel, hfc]
    rw [if_neg hcond]
  have hwX : weightedX lat lon
      = 557 * (1 / dist2 lat lon ⟨"city_hall", 39952351414037274/1000000000000000, -751636342534157/10000000000000, 557, 441⟩)
      + (400 * (1 / dist2 lat lon ⟨"west_lehigh_ave", 3999822295610221/100000000000000, -7518745246451326/100000000000000, 400, 49⟩)
      + (76353/100 * (1 / dist2 lat lon ⟨"wiggins_marina", 399421035968403/10000000000000, -7513209582939922/100000000000000, 76353/100, 52756/100⟩)
      + (106253/100 * (1 / dist2 lat lon ⟨"camden_petty_island_guard_house", 3996757021845487/100000000000000, -7508649891063769/100000000000000, 106253/100, 30956/100⟩) + 0))) := by
    simp [weightedX, ADSB_PHILADELPHIA_REFERENCE_POINTS]
  have hwY : weightedY lat lon
      = 441 * (1 / dist2 lat lon ⟨"city_hall", 39952351414037274/1000000000000000, -751636342534157/10000000000000, 557, 441⟩)
      + (49 * (1 / dist2 lat lon ⟨"west_lehigh_ave", 3999822295610221/100000000000000, -7518745246451326/100000000000000, 400, 49⟩)
      + (52756/100 * (1 / dist2 lat lon ⟨"wiggins_marina", 399421035968403/10000000000000, -7513209582939922/100000000000000, 76353/100, 52756/100⟩)
      + (30956/100 * (1 / dist2 lat lon ⟨"camden_petty_island_guard_house", 3996757021845487/100000000000000, -7508649891063769/100000000000000, 106253/100, 30956/100⟩) + 0))) := by
    simp [weightedY, ADSB_PHILADELPHIA_REFERENCE_POINTS]
  have hminX : refMinX = 400 := by
    norm_num [refMinX, qListMin, ADSB_PHILADELPHIA_REFERENCE_POINTS, min_def]
  have hmaxX : refMaxX = 106253/100 := by
    norm_num [refMaxX, qListMax, ADSB_PHILADELPHIA_REFERENCE_POINTS, max_def]
  have hminY : refMinY = 49 := by
    norm_num [refMinY, qListMin, ADSB_PHILADELPHIA_REFERENCE_POINTS, min_def]
  have hmaxY : refMaxY = 52756/100 := by
    norm_num [refMaxY, qListMax, ADSB_PHILADELPHIA_REFERENCE_POINTS, max_def]
  refine ⟨heval, ?_, ?_, ?_, ?_⟩
  · rw [heval, hminX]
    show (400:ℚ) ≤ weightedX lat lon / totalWeight lat lon
    rw [le_div_iff₀ htWpos, htW, hwX]
    linarith
  · rw [heval, hmaxX]
    show weightedX lat lon / totalWeight lat lon ≤ 106253/100
    rw [div_le_iff₀ htWpos, htW, hwX]
    linarith
  · rw [heval, hminY]
    show (49:ℚ) ≤ weightedY lat lon / totalWeight lat lon
    rw [le_div_iff₀ htWpos, htW, hwY]
    linarith
  · rw [heval, hmaxY]
    show weightedY lat lon / totalWeight lat lon ≤ 52756/100
    rw [div_le_iff₀ htWpos, htW, hwY]
    linarith


theorem latLonToPixel_idw_formula_witness :
    latLonToPixel (999/25) (-1503/20)
      = (weightedX (999/25) (-1503/20) / totalWeight (999/25) (-1503/20),
         weightedY (999/25) (-1503/20) / totalWeight (999/25) (-1503/20)) ∧
    refMinX ≤ (latLonToPixel (999/25) (-1503/20)).1 ∧
    (latLonToPixel (999/25) (-1503/20)).1 ≤ refMaxX ∧
    refMinY ≤ (latLonToPixel (999/25) (-1503/20)).2 ∧
    (latLonToPixel (999/25) (-1503/20)).2 ≤ refMaxY :=
  latLonToPixel_idw_formula (999/25) (-1503/20)
    (by norm_num [refMinLat, qListMin, ADSB_PHILADELPHIA_REFERENCE_POINTS, min_def])
    (by norm_num [refMaxLat, qListMax, ADSB_PHILADELPHIA_REFERENCE_POINTS, max_def])
    (by norm_num [refMinLon, qListMin, ADSB_PHILADELPHIA_REFERENCE_POINTS, min_def])
    (by norm_num [refMaxLon, qListMax, ADSB_PHILADELPHIA_REFERENCE_POINTS, max_def])
    (by intro p hp; fin_cases hp <;> norm_num [dist2, EPS2])
